import Mathlib

/-!
Shallow embedding of the template dependency store of go-tmpl (tmpl.go).

The store keeps a registry of compiled templates (a map from name to
compiled artifact), a metadata table of template records, a table of
(template name, file path) subscriptions, and the set of watched paths.
The external template engine is modelled by an `Engine` of parse oracles;
a compiled artifact (`Tmpl`) records the name it was created with and the
ordered list of parse operations layered onto it, which is exactly the
information the verified properties depend on.  The recursive child
rebuild of the Go code has no structural termination measure, so it is
embedded with an explicit `fuel` bound on the recursion depth; exceeding
the bound yields the sentinel error `TErr.fuelOut`, which models
divergence of the original recursion.
-/

/-- Errors of the store (tmpl.go lines 30-35) plus engine-surfaced errors
and the divergence sentinel for the fuel-bounded recursion. -/
inductive TErr where
  | noName
  | tmplNotFound
  | tmplExists
  | noTmpl
  | parseErr
  | fuelOut
deriving DecidableEq, Repr

/-- A single parse operation layered onto a compiled template:
either inline source text or a list of source files. -/
inductive SrcOp where
  | inline (src : String)
  | files (fs : List String)
deriving DecidableEq, Repr

/-- A compiled template artifact: the name it was created under and the
ordered parse operations applied to it.  `template.New` gives an empty
operation list, `Clone` copies it, `Parse`/`ParseFiles` append. -/
structure Tmpl where
  name : String
  ops : List SrcOp
deriving DecidableEq, Repr

/-- The external template engine collaborator, reduced to its observable
behaviour: whether parsing a given inline source or file list succeeds.
File contents live behind `parseFilesOk` (a missing or malformed file
makes it false). -/
structure Engine where
  parseOk : String → Bool
  parseFilesOk : List String → Bool

/-- tmplData record stored in the metadata table (database file). -/
structure TmplData where
  name : String
  baseTmplID : String
  src : String
  filenames : List String
  hasSrc : Bool
  hasBaseTmpl : Bool
deriving DecidableEq, Repr

/-- The template store: base directory, compiled registry, metadata
table, file-subscription table and watched paths. -/
structure TplSys where
  baseDir : String
  tmpls : String → Option Tmpl
  tmplData : List TmplData
  tmplFilenames : List (String × String)
  watched : List String

/-- template.New(name): an empty artifact bound to the name. -/
def tmplNew (name : String) : Tmpl := ⟨name, []⟩

/-- t.Clone(): a deep-enough copy; in the pure model the same value. -/
def tmplClone (t : Tmpl) : Tmpl := t

/-- t.Parse(src): append the inline source if the engine accepts it. -/
def tmplParse (e : Engine) (t : Tmpl) (src : String) : Except TErr Tmpl :=
  if e.parseOk src then .ok ⟨t.name, t.ops ++ [.inline src]⟩ else .error .parseErr

/-- t.ParseFiles(fs): append the file list if the engine accepts it. -/
def tmplParseFiles (e : Engine) (t : Tmpl) (fs : List String) : Except TErr Tmpl :=
  if e.parseFilesOk fs then .ok ⟨t.name, t.ops ++ [.files fs]⟩ else .error .parseErr

/-- strings.TrimSpace: drop leading and trailing whitespace. -/
def trimSpace (s : String) : String :=
  ⟨((s.data.dropWhile Char.isWhitespace).reverse.dropWhile Char.isWhitespace).reverse⟩

/-- checkName (tmpl.go lines 258-263): blank or whitespace-only names are
rejected with ErrNoName. -/
def checkName (name : String) : Option TErr :=
  if trimSpace name = "" then some .noName else none

/-- Registry map update: Go `t.store.tmpls[name] = tmpl`. -/
def insertTmpl (m : String → Option Tmpl) (k : String) (v : Tmpl) : String → Option Tmpl :=
  fun n => if n == k then some v else m n

/-- Point lookup in the metadata table by its unique name index. -/
def lookupData (db : List TmplData) (n : String) : Option TmplData :=
  db.find? (fun td => td.name == n)

/-- getTemplate (tmpl.go lines 161-175). -/
def getTemplate (s : TplSys) (name : String) : Except TErr Tmpl :=
  match checkName name with
  | some err => .error err
  | none =>
    match s.tmpls name with
    | none => .error .tmplNotFound
    | some t => .ok t

/-- strings.TrimPrefix: drop the prefix when present, else unchanged. -/
def trimPfx (s pfx : String) : String :=
  if pfx.data.isPrefixOf s.data then ⟨s.data.drop pfx.data.length⟩ else s

/-- Split a character list on '/' (helper for path.Clean). -/
def splitSlash : List Char → List (List Char)
  | [] => [[]]
  | c :: rest =>
    let r := splitSlash rest
    if c = '/' then [] :: r
    else
      match r with
      | [] => [[c]]
      | h :: t => (c :: h) :: t

/-- Join path components with '/'. -/
def joinComps : List (List Char) → List Char
  | [] => []
  | [c] => c
  | c :: rest => c ++ '/' :: joinComps rest

/-- filepath.Clean (lexical, Unix rules): drop empty and "." components,
resolve ".." against the stack, keep leading ".."s of relative paths. -/
def goClean (path : String) : String :=
  if path.data = [] then "." else
  let rooted := path.data.head? = some '/'
  let comps := (splitSlash path.data).foldl (fun stack c =>
    if c = [] ∨ c = ['.'] then stack
    else if c = ['.', '.'] then
      match stack with
      | [] => if rooted then [] else [['.', '.']]
      | top :: rest => if top = ['.', '.'] then c :: top :: rest else rest
    else c :: stack) ([] : List (List Char))
  let body := joinComps comps.reverse
  if rooted then ⟨'/' :: body⟩
  else if body = [] then "." else ⟨body⟩

/-- filepath.Join of two elements: empty elements are ignored, the
result is Cleaned, all-empty input gives the empty string. -/
def goJoin (a b : String) : String :=
  if a.data = [] ∧ b.data = [] then ""
  else if a.data = [] then goClean b
  else if b.data = [] then goClean a
  else goClean ⟨a.data ++ '/' :: b.data⟩

/-- File-path normalization of saveTemplate (tmpl.go lines 210-216):
strip one leading occurrence of the base directory, strip one leading
slash, rejoin with the base directory. -/
def cleanFilename (baseDir f : String) : String :=
  goJoin baseDir (trimPfx (trimPfx f baseDir) "/")

/-- saveTemplateDataToDB (database file lines 95-153): drop the old
watch subscriptions of the name, replace its metadata record, replace
its subscription rows, and watch the new file list (file-list records
only). -/
def saveTemplateDataToDB (s : TplSys) (td : TmplData) : TplSys :=
  let old := s.tmplFilenames.filter (fun p => p.1 == td.name)
  let watched1 := old.foldl (fun w p => w.erase p.2) s.watched
  let keep := s.tmplFilenames.filter (fun p => !(p.1 == td.name))
  let db1 := (s.tmplData.filter (fun r => !(r.name == td.name))) ++ [td]
  if td.hasSrc then
    { s with tmplData := db1, tmplFilenames := keep, watched := watched1 }
  else
    { s with tmplData := db1,
             tmplFilenames := keep ++ td.filenames.map (fun f => (td.name, f)),
             watched := watched1 ++ td.filenames }

/-- One child step of rebuildChildTemplates (tmpl.go lines 282-297):
clone the freshly rebuilt parent and parse the child's stored source on
top of the clone. -/
def childParse (e : Engine) (tmpl : Tmpl) (td : TmplData) : Except TErr Tmpl :=
  if td.hasSrc then tmplParse e (tmplClone tmpl) td.src
  else tmplParseFiles e (tmplClone tmpl) td.filenames

/-- The iteration of rebuildChildTemplates over the children of one
name (tmpl.go lines 282-307): parse each child on a clone of the parent,
store it, recurse into its own children via `sub`, abort on error.
`sub` is the recursive call one fuel level down. -/
def rebuildChildLoop (e : Engine) (sub : String → Tmpl → TplSys → Option TErr × TplSys)
    (tmpl : Tmpl) : List TmplData → TplSys → Option TErr × TplSys
  | [], s => (none, s)
  | td :: rest, s =>
    match childParse e tmpl td with
    | .error err => (some err, s)
    | .ok ctmpl =>
      let s1 := { s with tmpls := insertTmpl s.tmpls td.name ctmpl }
      match sub td.name ctmpl s1 with
      | (some err, s2) => (some err, s2)
      | (none, s2) => rebuildChildLoop e sub tmpl rest s2

/-- rebuildChildTemplates (tmpl.go lines 267-313): check the name, fetch
the children of `name` from the metadata table and rebuild each subtree.
The Go recursion is unbounded; `fuel` bounds its depth and running out
is reported as the divergence sentinel `TErr.fuelOut`. -/
def rebuildChildTemplates (e : Engine) : Nat → String → Tmpl → TplSys → Option TErr × TplSys
  | 0, _, _, s => (some .fuelOut, s)
  | fuel + 1, name, tmpl, s =>
    match checkName name with
    | some err => (some err, s)
    | none =>
      rebuildChildLoop e (rebuildChildTemplates e fuel) tmpl
        (s.tmplData.filter (fun td => td.baseTmplID == name)) s

/-- The phase of saveTemplate before any mutation (tmpl.go lines
177-225): check the name, resolve and clone the base template (a blank
base name means no base), trim the inline source, pick the source kind,
normalize file paths, and parse.  Returns the parsed artifact together
with hasBaseTmpl, hasSrc and the cleaned file list. -/
def saveTemplatePre (e : Engine) (s : TplSys) (name baseTmpl tmplSrc : String)
    (filenames : List String) : Except TErr (Tmpl × Bool × Bool × List String) :=
  match checkName name with
  | some err => .error err
  | none =>
    let pick : Except TErr (Tmpl × Bool) :=
      match checkName baseTmpl with
      | some _ => .ok (tmplNew name, false)
      | none =>
        match getTemplate s baseTmpl with
        | .error err => .error err
        | .ok t => .ok (tmplClone t, true)
    match pick with
    | .error err => .error err
    | .ok (tmpl0, hasBase) =>
      let src := trimSpace tmplSrc
      if src = "" then
        if filenames = [] then .error .noTmpl
        else
          let fns := filenames.map (cleanFilename s.baseDir)
          match tmplParseFiles e tmpl0 fns with
          | .error err => .error err
          | .ok t => .ok (t, hasBase, false, fns)
      else
        match tmplParse e tmpl0 src with
        | .error err => .error err
        | .ok t => .ok (t, hasBase, true, filenames)

/-- saveTemplate (tmpl.go lines 177-256): after the parse phase, store
the artifact in the registry, push the metadata record (with the trimmed
source and cleaned file list) to the table, and for a replacement (`isNew
= false`) rebuild all child templates. -/
def saveTemplate (e : Engine) (fuel : Nat) (s : TplSys) (name baseTmpl : String)
    (isNew : Bool) (tmplSrc : String) (filenames : List String) :
    Except TErr Tmpl × TplSys :=
  match saveTemplatePre e s name baseTmpl tmplSrc filenames with
  | .error err => (.error err, s)
  | .ok (tmpl, hasBase, hasSrc, fns) =>
    let s1 := { s with tmpls := insertTmpl s.tmpls name tmpl }
    let s2 := saveTemplateDataToDB s1 ⟨name, baseTmpl, trimSpace tmplSrc, fns, hasSrc, hasBase⟩
    if isNew then (.ok tmpl, s2)
    else
      match rebuildChildTemplates e fuel name tmpl s2 with
      | (some err, s3) => (.error err, s3)
      | (none, s3) => (.ok tmpl, s3)

/-- AddTemplate (tmpl.go lines 111-122): refuse existing names, then
save as a new template. -/
def AddTemplate (e : Engine) (fuel : Nat) (s : TplSys) (name baseTmpl tmplSrc : String)
    (filenames : List String) : Except TErr Tmpl × TplSys :=
  match getTemplate s name with
  | .ok _ => (.error .tmplExists, s)
  | .error .tmplNotFound => saveTemplate e fuel s name baseTmpl true tmplSrc filenames
  | .error err => (.error err, s)

/-- PutTemplate (tmpl.go lines 126-138): save, overriding an existing
template (isNew = false) and otherwise behaving as AddTemplate. -/
def PutTemplate (e : Engine) (fuel : Nat) (s : TplSys) (name baseTmpl tmplSrc : String)
    (filenames : List String) : Except TErr Tmpl × TplSys :=
  match getTemplate s name with
  | .error .tmplNotFound => saveTemplate e fuel s name baseTmpl true tmplSrc filenames
  | .ok _ => saveTemplate e fuel s name baseTmpl false tmplSrc filenames
  | .error err => (.error err, s)

/-- ExecuteTemplate (tmpl.go lines 142-159): look the template up and
render a throwaway clone with the caller's context.  `render` is the
engine's Execute: it may mutate the clone (first component) and yields
the rendered bytes or an execution error (second component); the mutated
clone is discarded and the store is left untouched. -/
def ExecuteTemplate {Ctx Output : Type}
    (render : Tmpl → Ctx → Tmpl × Except TErr Output)
    (s : TplSys) (name : String) (ctx : Ctx) : Except TErr Output × TplSys :=
  match getTemplate s name with
  | .error err => (.error err, s)
  | .ok tmpl => ((render (tmplClone tmpl) ctx).2, s)

deriving instance DecidableEq for Except

/-- The all-accepting engine (every source and file list parses). -/
def engAll : Engine := ⟨fun _ => true, fun _ => true⟩

/-- A freshly constructed store (NewTplSys with empty base directory). -/
def emptyStore : TplSys := ⟨"", fun _ => none, [], [], []⟩

theorem getTemplate_ok {s : TplSys} {name : String} {t : Tmpl}
    (h : getTemplate s name = .ok t) :
    checkName name = none ∧ s.tmpls name = some t := by
  unfold getTemplate at h
  cases hc : checkName name with
  | some err => rw [hc] at h; exact absurd h (by simp)
  | none =>
    rw [hc] at h
    cases hl : s.tmpls name with
    | none => rw [hl] at h; exact absurd h (by simp)
    | some t' =>
      rw [hl] at h
      simp only [Except.ok.injEq] at h
      exact ⟨rfl, congrArg some h⟩

theorem getTemplate_of_parts {s : TplSys} {name : String} {t : Tmpl}
    (hc : checkName name = none) (hl : s.tmpls name = some t) :
    getTemplate s name = .ok t := by
  unfold getTemplate; rw [hc, hl]

theorem saveTemplateDataToDB_tmpls (s : TplSys) (td : TmplData) :
    (saveTemplateDataToDB s td).tmpls = s.tmpls := by
  unfold saveTemplateDataToDB
  split <;> rfl

theorem saveTemplateDataToDB_tmplData (s : TplSys) (td : TmplData) :
    (saveTemplateDataToDB s td).tmplData =
      (s.tmplData.filter (fun r => !(r.name == td.name))) ++ [td] := by
  unfold saveTemplateDataToDB
  split <;> rfl

theorem saveTemplateDataToDB_baseDir (s : TplSys) (td : TmplData) :
    (saveTemplateDataToDB s td).baseDir = s.baseDir := by
  unfold saveTemplateDataToDB
  split <;> rfl

theorem lookupData_insert (l : List TmplData) (td : TmplData) (n : String)
    (h : td.name = n) :
    lookupData ((l.filter (fun r => !(r.name == td.name))) ++ [td]) n = some td := by
  unfold lookupData
  induction l with
  | nil => simp [List.find?, h]
  | cons r rest ih =>
    by_cases hr : r.name = td.name
    · simp only [List.filter_cons, hr]
      simpa using ih
    · have hb : (r.name == td.name) = false := by simpa using hr
      have hn : (r.name == n) = false := by
        subst h; simpa using hr
      simp only [List.filter_cons, hb, Bool.not_false, if_true]
      simp only [List.cons_append, List.find?, hn]
      exact ih

theorem rebuildChildLoop_tmplData (e : Engine)
    (sub : String → Tmpl → TplSys → Option TErr × TplSys) (tmpl : Tmpl)
    (hsub : ∀ n tm s, ((sub n tm s).2).tmplData = s.tmplData) :
    ∀ (children : List TmplData) (s : TplSys),
      ((rebuildChildLoop e sub tmpl children s).2).tmplData = s.tmplData := by
  intro children
  induction children with
  | nil => intro s; rfl
  | cons td rest ih =>
    intro s
    simp only [rebuildChildLoop]
    cases hp : childParse e tmpl td with
    | error err => rfl
    | ok ctmpl =>
      simp only []
      rcases hs2 : sub td.name ctmpl { s with tmpls := insertTmpl s.tmpls td.name ctmpl }
        with ⟨o, s2⟩
      have h2 : s2.tmplData = s.tmplData := by
        have := hsub td.name ctmpl { s with tmpls := insertTmpl s.tmpls td.name ctmpl }
        rw [hs2] at this
        exact this
      cases o with
      | some err => simp [hs2]; exact h2
      | none => simp [hs2]; rw [ih s2]; exact h2

theorem rebuildChildTemplates_tmplData (e : Engine) :
    ∀ (fuel : Nat) (name : String) (tm : Tmpl) (s : TplSys),
      ((rebuildChildTemplates e fuel name tm s).2).tmplData = s.tmplData := by
  intro fuel
  induction fuel with
  | zero => intro name tm s; rfl
  | succ f ih =>
    intro name tm s
    simp only [rebuildChildTemplates]
    cases checkName name with
    | some err => rfl
    | none =>
      exact rebuildChildLoop_tmplData e (rebuildChildTemplates e f) tm
        (fun n t s' => ih n t s') _ s

theorem saveTemplate_pre_error (e : Engine) (fuel : Nat) (s : TplSys)
    (n b : String) (isNew : Bool) (src : String) (fs : List String) (err : TErr)
    (hpre : saveTemplatePre e s n b src fs = .error err) :
    saveTemplate e fuel s n b isNew src fs = (.error err, s) := by
  simp [saveTemplate, hpre]

theorem saveTemplate_new_ok (e : Engine) (fuel : Nat) (s : TplSys)
    (n b : String) (src : String) (fs : List String)
    (t : Tmpl) (hb hs : Bool) (fns : List String)
    (hpre : saveTemplatePre e s n b src fs = .ok (t, hb, hs, fns)) :
    saveTemplate e fuel s n b true src fs =
      (.ok t, saveTemplateDataToDB { s with tmpls := insertTmpl s.tmpls n t }
        ⟨n, b, trimSpace src, fns, hs, hb⟩) := by
  simp [saveTemplate, hpre]

theorem saveTemplate_replace_eq (e : Engine) (fuel : Nat) (s : TplSys)
    (n b : String) (src : String) (fs : List String)
    (t : Tmpl) (hb hs : Bool) (fns : List String)
    (hpre : saveTemplatePre e s n b src fs = .ok (t, hb, hs, fns)) :
    saveTemplate e fuel s n b false src fs =
      (match rebuildChildTemplates e fuel n t
          (saveTemplateDataToDB { s with tmpls := insertTmpl s.tmpls n t }
            ⟨n, b, trimSpace src, fns, hs, hb⟩) with
       | (some err, s3) => (.error err, s3)
       | (none, s3) => (.ok t, s3)) := by
  simp [saveTemplate, hpre]

/-- C6: a second Add for an already-registered name returns the
TemplateExists error and leaves the whole store — in particular the
name's compiled artifact and metadata record — exactly as it was. -/
theorem addTemplate_duplicate (e : Engine) (fuel : Nat) (s : TplSys)
    (x baseTmpl tmplSrc : String) (filenames : List String) (t : Tmpl)
    (h : getTemplate s x = .ok t) :
    AddTemplate e fuel s x baseTmpl tmplSrc filenames = (.error .tmplExists, s) := by
  simp [AddTemplate, h]

/-- The store holding only the template "x" with inline source "hello". -/
def storeX : TplSys := (AddTemplate engAll 1 emptyStore "x" "" "hello" []).2

/-- Witness for C6 at a concrete store. -/
theorem addTemplate_duplicate_witness :
    AddTemplate engAll 1 storeX "x" "" "bye" [] = (.error .tmplExists, storeX) :=
  addTemplate_duplicate engAll 1 storeX "x" "" "bye" [] ⟨"x", [.inline "hello"]⟩ (by rfl)

/-- C7: Add of a child naming a valid but unregistered base template
returns the TemplateNotFound error and registers nothing. -/
theorem addTemplate_unresolved_base (e : Engine) (fuel : Nat) (s : TplSys)
    (child base tmplSrc : String) (filenames : List String)
    (hc : checkName child = none) (hl : s.tmpls child = none)
    (hb : checkName base = none) (hbl : s.tmpls base = none) :
    AddTemplate e fuel s child base tmplSrc filenames = (.error .tmplNotFound, s) := by
  have h1 : getTemplate s child = .error .tmplNotFound := by
    unfold getTemplate; rw [hc, hl]
  have h2 : getTemplate s base = .error .tmplNotFound := by
    unfold getTemplate; rw [hb, hbl]
  have hpre : saveTemplatePre e s child base tmplSrc filenames = .error .tmplNotFound := by
    unfold saveTemplatePre; rw [hc, hb, h2]
  simp [AddTemplate, h1, saveTemplate_pre_error e fuel s child base true tmplSrc filenames _ hpre]

/-- Witness for C7 at a concrete store. -/
theorem addTemplate_unresolved_base_witness :
    AddTemplate engAll 1 emptyStore "child" "missing-base" "text" [] =
      (.error .tmplNotFound, emptyStore) :=
  addTemplate_unresolved_base engAll 1 emptyStore "child" "missing-base" "text" []
    (by decide) (by rfl) (by decide) (by rfl)

/-- C9: on a name that is not registered, PutTemplate takes exactly the
AddTemplate path: the same result and the same successor store for every
base name, inline source and file list. -/
theorem putTemplate_eq_add_on_fresh (e : Engine) (fuel : Nat) (s : TplSys)
    (n b src : String) (fs : List String) (h : s.tmpls n = none) :
    PutTemplate e fuel s n b src fs = AddTemplate e fuel s n b src fs := by
  cases hc : checkName n with
  | some err =>
    have herr : err = .noName := by
      unfold checkName at hc
      split at hc
      · exact (Option.some.injEq _ _ ▸ hc).symm ▸ rfl
      · exact absurd hc (by simp)
    subst herr
    have hg : getTemplate s n = .error .noName := by
      unfold getTemplate; rw [hc]
    simp [PutTemplate, AddTemplate, hg]
  | none =>
    have hg : getTemplate s n = .error .tmplNotFound := by
      unfold getTemplate; rw [hc, h]
    simp [PutTemplate, AddTemplate, hg]

/-- Witness for C9 at a concrete fresh name. -/
theorem putTemplate_eq_add_on_fresh_witness :
    PutTemplate engAll 1 storeX "y" "x" "other" [] =
      AddTemplate engAll 1 storeX "y" "x" "other" [] :=
  putTemplate_eq_add_on_fresh engAll 1 storeX "y" "x" "other" [] (by rfl)

/-- C5, counterexample: supplying a blank base-template name does NOT
yield the NoName error — the Add succeeds and mutates the store (a blank
base name is the "no base template" sentinel, see saveTemplate lines
186-201). -/
theorem blank_base_not_noName_counterexample :
    (AddTemplate engAll 1 emptyStore "x" "" "hello" []).1 ≠ .error .noName
    ∧ (AddTemplate engAll 1 emptyStore "x" "" "hello" []).1 = .ok ⟨"x", [.inline "hello"]⟩
    ∧ (AddTemplate engAll 1 emptyStore "x" "" "hello" []).2.tmpls "x" ≠ emptyStore.tmpls "x" := by
  refine ⟨by decide, by decide, by decide⟩

/-- C5, amended: a blank or whitespace-only TEMPLATE name yields NoName
from Add, Put, Execute and lookup, with the store left unchanged; a blank
base-template name is not an error but selects "no base template". -/
theorem blank_name_noName {Ctx Output : Type}
    (render : Tmpl → Ctx → Tmpl × Except TErr Output) (ctx : Ctx)
    (e : Engine) (fuel : Nat) (s : TplSys) (name b src : String) (fs : List String)
    (h : trimSpace name = "") :
    AddTemplate e fuel s name b src fs = (.error .noName, s)
    ∧ PutTemplate e fuel s name b src fs = (.error .noName, s)
    ∧ getTemplate s name = .error .noName
    ∧ ExecuteTemplate render s name ctx = (.error .noName, s) := by
  have hc : checkName name = some .noName := by simp [checkName, h]
  have hg : getTemplate s name = .error .noName := by unfold getTemplate; rw [hc]
  exact ⟨by simp [AddTemplate, hg], by simp [PutTemplate, hg], hg,
    by simp [ExecuteTemplate, hg]⟩

/-- Witness for the amended C5 at the whitespace-only name.  The render
function returns its context as the output. -/
theorem blank_name_noName_witness :
    AddTemplate engAll 1 storeX "  " "" "z" [] = (.error .noName, storeX)
    ∧ PutTemplate engAll 1 storeX "  " "" "z" [] = (.error .noName, storeX)
    ∧ getTemplate storeX "  " = .error .noName
    ∧ ExecuteTemplate (fun t (c : Nat) => (t, .ok c)) storeX "  " 7 =
        (.error .noName, storeX) :=
  blank_name_noName (fun t (c : Nat) => (t, .ok c)) 7 engAll 1 storeX "  " "" "z" []
    (by decide)

/-- C4: ExecuteTemplate renders against a throwaway clone of the stored
artifact and never writes to the store, so two successive Execute calls
against the same name each produce the render of the SAME shared artifact
under their own context alone: neither call's per-render mutation or
substituted values can appear in the other's output. -/
theorem executeTemplate_isolated {Ctx Output : Type}
    (render : Tmpl → Ctx → Tmpl × Except TErr Output)
    (s : TplSys) (name : String) (c1 c2 : Ctx) (t : Tmpl)
    (h : getTemplate s name = .ok t) :
    (ExecuteTemplate render s name c1).2 = s
    ∧ (ExecuteTemplate render s name c1).1 = (render (tmplClone t) c1).2
    ∧ (ExecuteTemplate render (ExecuteTemplate render s name c1).2 name c2).1 =
        (render (tmplClone t) c2).2 := by
  simp [ExecuteTemplate, h]

/-- Witness for C4: a render function that mutates its clone and outputs
a value depending on both the artifact and the context. -/
def renderW : Tmpl → Nat → Tmpl × Except TErr Nat :=
  fun t c => (⟨t.name, t.ops ++ [.inline "blk"]⟩, .ok (t.ops.length + c))

theorem executeTemplate_isolated_witness :
    (ExecuteTemplate renderW storeX "x" 1).2 = storeX
    ∧ (ExecuteTemplate renderW storeX "x" 1).1 =
        (renderW (tmplClone ⟨"x", [.inline "hello"]⟩) 1).2
    ∧ (ExecuteTemplate renderW (ExecuteTemplate renderW storeX "x" 1).2 "x" 2).1 =
        (renderW (tmplClone ⟨"x", [.inline "hello"]⟩) 2).2 :=
  executeTemplate_isolated renderW storeX "x" 1 2 ⟨"x", [.inline "hello"]⟩ (by rfl)

/-- The engine observed when the watched file "f" has been deleted or
corrupted between calls: inline parses succeed, file parses fail. -/
def engNoFiles : Engine := ⟨fun _ => true, fun _ => false⟩

/-- Reachable store for the C3 counterexample: "A" is inline-sourced,
"B" is a file-list child of "A" reading the file "f". -/
def storeAwithFileChild : TplSys :=
  (AddTemplate engAll 1 (AddTemplate engAll 1 emptyStore "A" "" "a0" []).2
    "B" "A" "" ["f"]).2

/-- C3, counterexample: a direct Put that fails inside its child cascade
returns an error, yet the registry entry and metadata record of the Put
name have already been replaced — the cascade of a direct Put is not
all-or-nothing.  Here Put("A") parses fine, installs A's new artifact
and record, then fails rebuilding the file-based child "B". -/
theorem putTemplate_error_mutates_counterexample :
    (PutTemplate engNoFiles 3 storeAwithFileChild "A" "" "new" []).1 = .error .parseErr
    ∧ (PutTemplate engNoFiles 3 storeAwithFileChild "A" "" "new" []).2.tmpls "A" ≠
        storeAwithFileChild.tmpls "A"
    ∧ lookupData (PutTemplate engNoFiles 3 storeAwithFileChild "A" "" "new" []).2.tmplData "A" ≠
        lookupData storeAwithFileChild.tmplData "A" := by
  refine ⟨by decide, by decide, by decide⟩

/-- C3, amended: every failing Add leaves the store untouched, as does
every failing Put of an unregistered name, and any failure of the
pre-mutation phase of saveTemplate (name check, base resolution, source
classification, parse) leaves the store untouched — no metadata or
registry entry is installed before parsing succeeds.  (A failure inside
the child cascade of a Put on an existing name, by contrast, keeps the
already-installed parent state, as the counterexample shows.) -/
theorem add_put_atomic_on_failure :
    (∀ (e : Engine) (fuel : Nat) (s : TplSys) (n b src : String) (fs : List String) (err : TErr),
      (AddTemplate e fuel s n b src fs).1 = .error err →
      (AddTemplate e fuel s n b src fs).2 = s)
    ∧ (∀ (e : Engine) (fuel : Nat) (s : TplSys) (n b src : String) (fs : List String) (err : TErr),
      s.tmpls n = none → (PutTemplate e fuel s n b src fs).1 = .error err →
      (PutTemplate e fuel s n b src fs).2 = s)
    ∧ (∀ (e : Engine) (fuel : Nat) (s : TplSys) (n b : String) (isNew : Bool)
        (src : String) (fs : List String) (err : TErr),
      saveTemplatePre e s n b src fs = .error err →
      saveTemplate e fuel s n b isNew src fs = (.error err, s)) := by
  have hsave : ∀ (e : Engine) (fuel : Nat) (s : TplSys) (n b src : String)
      (fs : List String) (err : TErr),
      (saveTemplate e fuel s n b true src fs).1 = .error err →
      (saveTemplate e fuel s n b true src fs).2 = s := by
    intro e fuel s n b src fs err h
    cases hpre : saveTemplatePre e s n b src fs with
    | error err' => rw [saveTemplate_pre_error e fuel s n b true src fs err' hpre]
    | ok v =>
      obtain ⟨t, hb, hs, fns⟩ := v
      rw [saveTemplate_new_ok e fuel s n b src fs t hb hs fns hpre] at h
      exact absurd h (by simp)
  refine ⟨?_, ?_, ?_⟩
  · intro e fuel s n b src fs err h
    unfold AddTemplate at *
    cases hg : getTemplate s n with
    | ok t => rfl
    | error err' =>
      rw [hg] at h
      cases err' with
      | tmplNotFound => exact hsave e fuel s n b src fs err h
      | noName => rfl
      | tmplExists => rfl
      | noTmpl => rfl
      | parseErr => rfl
      | fuelOut => rfl
  · intro e fuel s n b src fs err hn h
    unfold PutTemplate at *
    cases hc : checkName n with
    | some err' =>
      have hg : getTemplate s n = .error err' := by unfold getTemplate; rw [hc]
      have herr : err' = .noName := by
        unfold checkName at hc
        split at hc
        · exact (Option.some.injEq _ _ ▸ hc).symm ▸ rfl
        · exact absurd hc (by simp)
      subst herr
      rw [hg]
    | none =>
      have hg : getTemplate s n = .error .tmplNotFound := by
        unfold getTemplate; rw [hc, hn]
      rw [hg] at h ⊢
      exact hsave e fuel s n b src fs err h
  · intro e fuel s n b isNew src fs err hpre
    exact saveTemplate_pre_error e fuel s n b isNew src fs err hpre

/-- Witness for the amended C3: a failing Add (duplicate name) and a
failing fresh Put (no source) leave the concrete store untouched, and a
failing pre-phase leaves saveTemplate at the unchanged store. -/
theorem add_put_atomic_on_failure_witness :
    (AddTemplate engAll 1 storeX "x" "" "again" []).2 = storeX
    ∧ (PutTemplate engAll 1 storeX "y" "" "  " []).2 = storeX
    ∧ saveTemplate engAll 1 storeX "y" "" true "  " [] = (.error .noTmpl, storeX) :=
  ⟨add_put_atomic_on_failure.1 engAll 1 storeX "x" "" "again" [] .tmplExists (by decide),
   add_put_atomic_on_failure.2.1 engAll 1 storeX "y" "" "  " [] .noTmpl (by rfl) (by decide),
   add_put_atomic_on_failure.2.2 engAll 1 storeX "y" "" true "  " [] .noTmpl (by decide)⟩

theorem saveTemplatePre_trim_congr (e : Engine) (s : TplSys) (n b : String)
    (src₁ src₂ : String) (fs : List String) (h : trimSpace src₁ = trimSpace src₂) :
    saveTemplatePre e s n b src₁ fs = saveTemplatePre e s n b src₂ fs := by
  unfold saveTemplatePre
  rw [h]

theorem saveTemplate_trim_congr (e : Engine) (fuel : Nat) (s : TplSys) (n b : String)
    (isNew : Bool) (src₁ src₂ : String) (fs : List String)
    (h : trimSpace src₁ = trimSpace src₂) :
    saveTemplate e fuel s n b isNew src₁ fs = saveTemplate e fuel s n b isNew src₂ fs := by
  unfold saveTemplate
  rw [saveTemplatePre_trim_congr e s n b src₁ src₂ fs h, h]

/-- C10: the inline source is trimmed before the source kind is decided,
so saveTemplate — and hence Add and Put — behave as a function of the
trimmed source only (a whitespace-only inline source acts exactly like an
absent one); on success the metadata record stores the trimmed text as
the source; and with a whitespace-only source, no base and an empty file
list the NoSource error is returned with the store unchanged. -/
theorem inline_source_trimmed :
    (∀ (e : Engine) (fuel : Nat) (s : TplSys) (n b : String) (isNew : Bool)
        (src₁ src₂ : String) (fs : List String), trimSpace src₁ = trimSpace src₂ →
      saveTemplate e fuel s n b isNew src₁ fs = saveTemplate e fuel s n b isNew src₂ fs
      ∧ AddTemplate e fuel s n b src₁ fs = AddTemplate e fuel s n b src₂ fs
      ∧ PutTemplate e fuel s n b src₁ fs = PutTemplate e fuel s n b src₂ fs)
    ∧ (∀ (e : Engine) (fuel : Nat) (s : TplSys) (n b : String) (isNew : Bool)
        (src : String) (fs : List String) (t : Tmpl),
      (saveTemplate e fuel s n b isNew src fs).1 = .ok t →
      ∃ td, lookupData ((saveTemplate e fuel s n b isNew src fs).2).tmplData n = some td
        ∧ td.src = trimSpace src)
    ∧ (∀ (e : Engine) (fuel : Nat) (s : TplSys) (n b : String) (isNew : Bool)
        (src : String) (fs : List String),
      checkName n = none → trimSpace b = "" → trimSpace src = "" → fs = [] →
      saveTemplate e fuel s n b isNew src fs = (.error .noTmpl, s)) := by
  refine ⟨?_, ?_, ?_⟩
  · intro e fuel s n b isNew src₁ src₂ fs h
    have hsv : ∀ isNew', saveTemplate e fuel s n b isNew' src₁ fs =
        saveTemplate e fuel s n b isNew' src₂ fs :=
      fun isNew' => saveTemplate_trim_congr e fuel s n b isNew' src₁ src₂ fs h
    refine ⟨hsv isNew, ?_, ?_⟩
    · unfold AddTemplate
      cases getTemplate s n with
      | ok t => rfl
      | error err => cases err <;> simp [hsv]
    · unfold PutTemplate
      cases getTemplate s n with
      | ok t => simp [hsv]
      | error err => cases err <;> simp [hsv]
  · intro e fuel s n b isNew src fs t h
    cases hpre : saveTemplatePre e s n b src fs with
    | error err =>
      rw [saveTemplate_pre_error e fuel s n b isNew src fs err hpre] at h
      exact absurd h (by simp)
    | ok v =>
      obtain ⟨t', hb, hs, fns⟩ := v
      cases isNew with
      | true =>
        rw [saveTemplate_new_ok e fuel s n b src fs t' hb hs fns hpre]
        refine ⟨⟨n, b, trimSpace src, fns, hs, hb⟩, ?_, rfl⟩
        rw [saveTemplateDataToDB_tmplData]
        exact lookupData_insert _ _ _ rfl
      | false =>
        rw [saveTemplate_replace_eq e fuel s n b src fs t' hb hs fns hpre]
        rcases hrb : rebuildChildTemplates e fuel n t'
            (saveTemplateDataToDB { s with tmpls := insertTmpl s.tmpls n t' }
              ⟨n, b, trimSpace src, fns, hs, hb⟩) with ⟨o, s3⟩
        have h3 : s3.tmplData =
            (saveTemplateDataToDB { s with tmpls := insertTmpl s.tmpls n t' }
              ⟨n, b, trimSpace src, fns, hs, hb⟩).tmplData := by
          have := rebuildChildTemplates_tmplData e fuel n t'
            (saveTemplateDataToDB { s with tmpls := insertTmpl s.tmpls n t' }
              ⟨n, b, trimSpace src, fns, hs, hb⟩)
          rw [hrb] at this
          exact this
        cases o with
        | some err => simp [hrb]; rw [h3, saveTemplateDataToDB_tmplData]
                      exact ⟨⟨n, b, trimSpace src, fns, hs, hb⟩, lookupData_insert _ _ _ rfl, rfl⟩
        | none => simp [hrb]; rw [h3, saveTemplateDataToDB_tmplData]
                  exact ⟨⟨n, b, trimSpace src, fns, hs, hb⟩, lookupData_insert _ _ _ rfl, rfl⟩
  · intro e fuel s n b isNew src fs hn hb hsrc hfs
    have hcb : checkName b = some .noName := by simp [checkName, hb]
    have hpre : saveTemplatePre e s n b src fs = .error .noTmpl := by
      unfold saveTemplatePre
      rw [hn, hcb, hsrc, hfs]
      simp
    exact saveTemplate_pre_error e fuel s n b isNew src fs .noTmpl hpre

/-- Witness for C10: " hi " and "hi" drive saveTemplate identically, a
successful save stores the trimmed source, and a whitespace-only source
with no files is NoSource. -/
theorem inline_source_trimmed_witness :
    (saveTemplate engAll 1 emptyStore "x" "" true " hi " [] =
      saveTemplate engAll 1 emptyStore "x" "" true "hi" [])
    ∧ (∃ td, lookupData ((saveTemplate engAll 1 emptyStore "x" "" true " hi " []).2).tmplData "x" =
        some td ∧ td.src = trimSpace " hi ")
    ∧ saveTemplate engAll 1 emptyStore "x" "" true "  " [] = (.error .noTmpl, emptyStore) :=
  ⟨(inline_source_trimmed.1 engAll 1 emptyStore "x" "" true " hi " "hi" [] (by decide)).1,
   inline_source_trimmed.2.1 engAll 1 emptyStore "x" "" true " hi " [] ⟨"x", [.inline "hi"]⟩ (by decide),
   inline_source_trimmed.2.2 engAll 1 emptyStore "x" "" true "  " [] (by decide) (by decide)
     (by decide) rfl⟩

theorem isPrefixOf_append_self (l m : List Char) : l.isPrefixOf (l ++ m) = true := by
  induction l with
  | nil => simp [List.isPrefixOf]
  | cons a as ih => simp [List.isPrefixOf, ih]

theorem strData_append (a b : String) : (a ++ b).data = a.data ++ b.data := rfl

theorem trimPfx_self_append (base f : String) : trimPfx (base ++ f) base = f := by
  unfold trimPfx
  rw [strData_append, isPrefixOf_append_self]
  simp

theorem trimPfx_not_pfx (base f : String) (h : base.data.isPrefixOf f.data = false) :
    trimPfx f base = f := by
  unfold trimPfx
  rw [h]
  simp

/-- C8: the stored and parsed file list is exactly the caller's paths
normalized by cleanFilename (strip one leading base-directory prefix and
one leading slash, rejoin with the base directory), and a bare relative
path (one not already starting with the base directory) and the same
path prefixed with the base directory normalize to the same stored path. -/
theorem filepath_normalization :
    (∀ baseDir f : String, baseDir.data.isPrefixOf f.data = false →
      cleanFilename baseDir f = cleanFilename baseDir (baseDir ++ f))
    ∧ (∀ (e : Engine) (fuel : Nat) (s : TplSys) (n b src : String) (fs : List String)
        (t : Tmpl),
      trimSpace src = "" → (saveTemplate e fuel s n b true src fs).1 = .ok t →
      (∃ td, lookupData ((saveTemplate e fuel s n b true src fs).2).tmplData n = some td
        ∧ td.filenames = fs.map (cleanFilename s.baseDir))
      ∧ ∃ pre, t.ops = pre ++ [SrcOp.files (fs.map (cleanFilename s.baseDir))]) := by
  constructor
  · intro baseDir f h
    unfold cleanFilename
    rw [trimPfx_self_append, trimPfx_not_pfx baseDir f h]
  · intro e fuel s n b src fs t hsrc h
    cases hpre : saveTemplatePre e s n b src fs with
    | error err =>
      rw [saveTemplate_pre_error e fuel s n b true src fs err hpre] at h
      exact absurd h (by simp)
    | ok v =>
      obtain ⟨t', hb, hs, fns⟩ := v
      have hok := saveTemplate_new_ok e fuel s n b src fs t' hb hs fns hpre
      rw [hok] at h ⊢
      simp only at h
      -- analyse the pre phase: with a blank trimmed source it took the file branch
      unfold saveTemplatePre at hpre
      cases hn : checkName n with
      | some err => rw [hn] at hpre; exact absurd hpre (by simp)
      | none =>
        rw [hn] at hpre
        rcases hpick : (match checkName b with
          | some _ => Except.ok (tmplNew n, false)
          | none =>
            match getTemplate s b with
            | .error err => Except.error err
            | .ok t => Except.ok (tmplClone t, true)) with err0 | ⟨tmpl0, hb0⟩
        · rw [hpick] at hpre; exact absurd hpre (by simp)
        · rw [hpick] at hpre
          simp only [hsrc, reduceIte] at hpre
          cases hfs : fs with
          | nil => rw [hfs] at hpre; exact absurd hpre (by simp)
          | cons f0 fsr =>
            rw [hfs] at hpre
            simp only [reduceCtorEq, reduceIte] at hpre
            rcases hpf : tmplParseFiles e tmpl0 ((f0 :: fsr).map (cleanFilename s.baseDir))
              with err1 | t1
            · rw [hpf] at hpre; exact absurd hpre (by simp)
            · rw [hpf] at hpre
              simp only [Except.ok.injEq, Prod.mk.injEq] at hpre
              obtain ⟨ht, hhb, hhs, hfns⟩ := hpre
              simp only [Except.ok.injEq] at h
              subst ht hhb hhs hfns h hfs
              constructor
              · refine ⟨⟨n, b, trimSpace src, (f0 :: fsr).map (cleanFilename s.baseDir),
                  false, hb0⟩, ?_, rfl⟩
                rw [saveTemplateDataToDB_tmplData]
                exact lookupData_insert _ _ _ rfl
              · unfold tmplParseFiles at hpf
                split at hpf
                · simp only [Except.ok.injEq] at hpf
                  exact ⟨tmpl0.ops, by rw [← hpf]⟩
                · exact absurd hpf (by simp)

/-- Witness for C8: a bare relative path matches its base-prefixed form,
and a concrete file-based save stores the normalized list. -/
theorem filepath_normalization_witness :
    cleanFilename "td/" "content/index.html" =
      cleanFilename "td/" ("td/" ++ "content/index.html")
    ∧ ((∃ td, lookupData ((saveTemplate engAll 1 emptyStore "B" "" true "" ["f"]).2).tmplData "B" =
          some td ∧ td.filenames = ["f"].map (cleanFilename emptyStore.baseDir))
       ∧ ∃ pre, (⟨"B", [SrcOp.files ["f"]]⟩ : Tmpl).ops =
          pre ++ [SrcOp.files (["f"].map (cleanFilename emptyStore.baseDir))]) :=
  ⟨filepath_normalization.1 "td/" "content/index.html" (by decide),
   filepath_normalization.2 engAll 1 emptyStore "B" "" "" ["f"] ⟨"B", [.files ["f"]]⟩
     (by decide) (by decide)⟩

theorem childParse_ok_ops (e : Engine) (tmpl : Tmpl) (td : TmplData) (c : Tmpl)
    (h : childParse e tmpl td = .ok c) :
    ∃ op, c.ops = tmpl.ops ++ [op] := by
  unfold childParse tmplParse tmplParseFiles tmplClone at h
  split at h
  · split at h
    · simp only [Except.ok.injEq] at h
      exact ⟨.inline td.src, by rw [← h]⟩
    · exact absurd h (by simp)
  · split at h
    · simp only [Except.ok.injEq] at h
      exact ⟨.files td.filenames, by rw [← h]⟩
    · exact absurd h (by simp)

/-- Every registry entry after a rebuild loop is either unchanged or an
artifact extending the rebuilt parent's operation list. -/
theorem rebuildChildLoop_entry (e : Engine)
    (sub : String → Tmpl → TplSys → Option TErr × TplSys)
    (hsub : ∀ n tm s k, ((sub n tm s).2).tmpls k = s.tmpls k
      ∨ ∃ t', ((sub n tm s).2).tmpls k = some t' ∧ ∃ ext, t'.ops = tm.ops ++ ext) :
    ∀ (tmpl : Tmpl) (children : List TmplData) (s : TplSys) (k : String),
      ((rebuildChildLoop e sub tmpl children s).2).tmpls k = s.tmpls k
      ∨ ∃ t', ((rebuildChildLoop e sub tmpl children s).2).tmpls k = some t'
          ∧ ∃ ext, t'.ops = tmpl.ops ++ ext := by
  intro tmpl children
  induction children with
  | nil => intro s k; exact Or.inl rfl
  | cons td rest ih =>
    intro s k
    simp only [rebuildChildLoop]
    cases hp : childParse e tmpl td with
    | error err => exact Or.inl rfl
    | ok ctmpl =>
      obtain ⟨op, hops⟩ := childParse_ok_ops e tmpl td ctmpl hp
      simp only []
      rcases hs2 : sub td.name ctmpl { s with tmpls := insertTmpl s.tmpls td.name ctmpl }
        with ⟨o, s2⟩
      have hstep : s2.tmpls k = s.tmpls k
          ∨ ∃ t', s2.tmpls k = some t' ∧ ∃ ext, t'.ops = tmpl.ops ++ ext := by
        have h1 := hsub td.name ctmpl
          { s with tmpls := insertTmpl s.tmpls td.name ctmpl } k
        rw [hs2] at h1
        rcases h1 with h1 | ⟨t', ht', ext, hext⟩
        · by_cases hk : k = td.name
          · refine Or.inr ⟨ctmpl, ?_, [op], hops⟩
            rw [h1]
            simp [insertTmpl, hk]
          · refine Or.inl ?_
            rw [h1]
            simp [insertTmpl, hk]
        · exact Or.inr ⟨t', ht', op :: ext, by rw [hext, hops, List.append_assoc]; rfl⟩
      cases o with
      | some err => simpa using hstep
      | none =>
        simp only []
        rcases ih s2 k with h2 | ⟨t', ht', ext, hext⟩
        · rw [h2]; exact hstep
        · exact Or.inr ⟨t', ht', ext, hext⟩

/-- Every registry entry after rebuildChildTemplates is either unchanged
or an artifact extending the rebuilt parent's operation list. -/
theorem rebuildChildTemplates_entry (e : Engine) :
    ∀ (fuel : Nat) (name : String) (tm : Tmpl) (s : TplSys) (k : String),
      ((rebuildChildTemplates e fuel name tm s).2).tmpls k = s.tmpls k
      ∨ ∃ t', ((rebuildChildTemplates e fuel name tm s).2).tmpls k = some t'
          ∧ ∃ ext, t'.ops = tm.ops ++ ext := by
  intro fuel
  induction fuel with
  | zero => intro name tm s k; exact Or.inl rfl
  | succ f ih =>
    intro name tm s k
    simp only [rebuildChildTemplates]
    cases checkName name with
    | some err => exact Or.inl rfl
    | none =>
      exact rebuildChildLoop_entry e (rebuildChildTemplates e f)
        (fun n t s' k' => ih n t s' k') tm _ s k

/-- On a successful rebuild loop, every child in the processed list ends
up registered with an artifact that extends the rebuilt parent's
operation list. -/
theorem rebuildChildLoop_child (e : Engine)
    (sub : String → Tmpl → TplSys → Option TErr × TplSys)
    (hsub : ∀ n tm s k, ((sub n tm s).2).tmpls k = s.tmpls k
      ∨ ∃ t', ((sub n tm s).2).tmpls k = some t' ∧ ∃ ext, t'.ops = tm.ops ++ ext) :
    ∀ (tmpl : Tmpl) (children : List TmplData) (s s' : TplSys),
      rebuildChildLoop e sub tmpl children s = (none, s') →
      ∀ td ∈ children,
        ∃ t', s'.tmpls td.name = some t' ∧ ∃ ext, t'.ops = tmpl.ops ++ ext := by
  intro tmpl children
  induction children with
  | nil => intro s s' h td htd; exact absurd htd (by simp)
  | cons td0 rest ih =>
    intro s s' h td htd
    rw [rebuildChildLoop] at h
    cases hp : childParse e tmpl td0 with
    | error err => rw [hp] at h; exact absurd h (by simp)
    | ok ctmpl =>
      rw [hp] at h
      simp only [] at h
      obtain ⟨op, hops⟩ := childParse_ok_ops e tmpl td0 ctmpl hp
      rcases hs2 : sub td0.name ctmpl { s with tmpls := insertTmpl s.tmpls td0.name ctmpl }
        with ⟨o, s2⟩
      rw [hs2] at h
      cases o with
      | some err => exact absurd h (by simp)
      | none =>
        simp only [] at h
        rcases List.mem_cons.mp htd with heq | hmem
        · subst heq
          have hstep : s2.tmpls td.name = some ctmpl
              ∨ ∃ t', s2.tmpls td.name = some t' ∧ ∃ ext, t'.ops = tmpl.ops ++ ext := by
            have h1 := hsub td.name ctmpl
              { s with tmpls := insertTmpl s.tmpls td.name ctmpl } td.name
            rw [hs2] at h1
            rcases h1 with h1 | ⟨t', ht', ext, hext⟩
            · refine Or.inl ?_
              rw [h1]
              simp [insertTmpl]
            · exact Or.inr ⟨t', ht', op :: ext,
                by rw [hext, hops, List.append_assoc]; rfl⟩
          have hrest := rebuildChildLoop_entry e sub hsub tmpl rest s2 td.name
          rw [h] at hrest
          rcases hrest with h2 | ⟨t', ht', ext, hext⟩
          · rcases hstep with h3 | ⟨t', ht', ext, hext⟩
            · exact ⟨ctmpl, by rw [h2, h3], [op], hops⟩
            · exact ⟨t', by rw [h2, ht'], ext, hext⟩
          · exact ⟨t', ht', ext, hext⟩
        · exact ih s2 s' h td hmem

/-- On a successful rebuildChildTemplates, every metadata child of the
rebuilt name ends up registered with an artifact extending the parent's
operation list. -/
theorem rebuildChildTemplates_child (e : Engine) :
    ∀ (fuel : Nat) (name : String) (tm : Tmpl) (s s' : TplSys),
      rebuildChildTemplates e fuel name tm s = (none, s') →
      ∀ td ∈ s.tmplData, td.baseTmplID = name →
        ∃ t', s'.tmpls td.name = some t' ∧ ∃ ext, t'.ops = tm.ops ++ ext := by
  intro fuel name tm s s' h td htd hbase
  cases fuel with
  | zero => exact absurd h (by simp [rebuildChildTemplates])
  | succ f =>
    rw [rebuildChildTemplates] at h
    cases hc : checkName name with
    | some err => rw [hc] at h; exact absurd h (by simp)
    | none =>
      rw [hc] at h
      refine rebuildChildLoop_child e (rebuildChildTemplates e f)
        (fun n t s0 k => rebuildChildTemplates_entry e f n t s0 k) tm _ s s' h td ?_
      exact List.mem_filter.mpr ⟨htd, by simp [hbase]⟩

/-- On a successful rebuild loop, every metadata grandchild hanging off
a processed child ends up registered with an artifact extending the
rebuilt parent's operation list. -/
theorem rebuildChildLoop_grandchild (e : Engine)
    (sub : String → Tmpl → TplSys → Option TErr × TplSys)
    (hpres : ∀ n tm s, ((sub n tm s).2).tmplData = s.tmplData)
    (hsub : ∀ n tm s k, ((sub n tm s).2).tmpls k = s.tmpls k
      ∨ ∃ t', ((sub n tm s).2).tmpls k = some t' ∧ ∃ ext, t'.ops = tm.ops ++ ext)
    (hchild : ∀ (n : String) (tm : Tmpl) (s s2 : TplSys), sub n tm s = (none, s2) →
      ∀ td2 ∈ s.tmplData, td2.baseTmplID = n →
        ∃ t', s2.tmpls td2.name = some t' ∧ ∃ ext, t'.ops = tm.ops ++ ext) :
    ∀ (tmpl : Tmpl) (children : List TmplData) (s s' : TplSys),
      rebuildChildLoop e sub tmpl children s = (none, s') →
      ∀ td ∈ children, ∀ td2 ∈ s.tmplData, td2.baseTmplID = td.name →
        ∃ t', s'.tmpls td2.name = some t' ∧ ∃ ext, t'.ops = tmpl.ops ++ ext := by
  intro tmpl children
  induction children with
  | nil => intro s s' h td htd; exact absurd htd (by simp)
  | cons td0 rest ih =>
    intro s s' h td htd td2 htd2 hbase2
    rw [rebuildChildLoop] at h
    cases hp : childParse e tmpl td0 with
    | error err => rw [hp] at h; exact absurd h (by simp)
    | ok ctmpl =>
      rw [hp] at h
      simp only [] at h
      obtain ⟨op, hops⟩ := childParse_ok_ops e tmpl td0 ctmpl hp
      rcases hs2 : sub td0.name ctmpl { s with tmpls := insertTmpl s.tmpls td0.name ctmpl }
        with ⟨o, s2⟩
      rw [hs2] at h
      cases o with
      | some err => exact absurd h (by simp)
      | none =>
        simp only [] at h
        have hs2data : s2.tmplData = s.tmplData := by
          have := hpres td0.name ctmpl { s with tmpls := insertTmpl s.tmpls td0.name ctmpl }
          rw [hs2] at this
          exact this
        rcases List.mem_cons.mp htd with heq | hmem
        · subst heq
          have hstep := hchild td.name ctmpl
            { s with tmpls := insertTmpl s.tmpls td.name ctmpl } s2 hs2 td2 htd2 hbase2
          obtain ⟨t', ht', ext, hext⟩ := hstep
          have hrest := rebuildChildLoop_entry e sub hsub tmpl rest s2 td2.name
          rw [h] at hrest
          rcases hrest with h2 | ⟨t'', ht'', ext', hext'⟩
          · exact ⟨t', by rw [h2, ht'], op :: ext,
              by rw [hext, hops, List.append_assoc]; rfl⟩
          · exact ⟨t'', ht'', ext', hext'⟩
        · exact ih s2 s' h td hmem td2 (hs2data ▸ htd2) hbase2

/-- On a successful rebuildChildTemplates, every metadata grandchild of
the rebuilt name ends up registered with an artifact extending the
parent's operation list. -/
theorem rebuildChildTemplates_grandchild (e : Engine) :
    ∀ (fuel : Nat) (name : String) (tm : Tmpl) (s s' : TplSys),
      rebuildChildTemplates e fuel name tm s = (none, s') →
      ∀ td ∈ s.tmplData, td.baseTmplID = name →
      ∀ td2 ∈ s.tmplData, td2.baseTmplID = td.name →
        ∃ t', s'.tmpls td2.name = some t' ∧ ∃ ext, t'.ops = tm.ops ++ ext := by
  intro fuel name tm s s' h td htd hbase td2 htd2 hbase2
  cases fuel with
  | zero => exact absurd h (by simp [rebuildChildTemplates])
  | succ f =>
    rw [rebuildChildTemplates] at h
    cases hc : checkName name with
    | some err => rw [hc] at h; exact absurd h (by simp)
    | none =>
      rw [hc] at h
      refine rebuildChildLoop_grandchild e (rebuildChildTemplates e f)
        (fun n t s0 => rebuildChildTemplates_tmplData e f n t s0)
        (fun n t s0 k => rebuildChildTemplates_entry e f n t s0 k)
        (fun n t s0 s2 hrun td2' htd2' hb2 =>
          rebuildChildTemplates_child e f n t s0 s2 hrun td2' htd2' hb2)
        tm _ s s' h td ?_ td2 htd2 hbase2
      exact List.mem_filter.mpr ⟨htd, by simp [hbase]⟩

/-- C1: in a store where A is registered, B is a metadata child of A and
C a metadata child of B, a successful PutTemplate of new inline source
for A (with any base argument) rebuilds B and C before returning:
looking up B or C afterwards (as ExecuteTemplate does before rendering)
yields artifacts that are built on top of A's returned new artifact and
contain A's new source among their parse operations, without any
re-registration of B or C. -/
theorem cascade_propagation (e : Engine) (fuel : Nat) (s : TplSys)
    (A B C bb newSrc : String) (b c : TmplData) (tA t : Tmpl)
    (hA : getTemplate s A = .ok tA)
    (hb : b ∈ s.tmplData) (hbn : b.name = B) (hbb : b.baseTmplID = A)
    (hc : c ∈ s.tmplData) (hcn : c.name = C) (hcb : c.baseTmplID = B)
    (hBA : B ≠ A) (hCA : C ≠ A)
    (hNB : checkName B = none) (hNC : checkName C = none)
    (hsrc : trimSpace newSrc ≠ "")
    (hput : (PutTemplate e fuel s A bb newSrc []).1 = .ok t) :
    ∃ tB tC,
      getTemplate (PutTemplate e fuel s A bb newSrc []).2 B = .ok tB
      ∧ SrcOp.inline (trimSpace newSrc) ∈ tB.ops
      ∧ (∃ ext, tB.ops = t.ops ++ ext)
      ∧ getTemplate (PutTemplate e fuel s A bb newSrc []).2 C = .ok tC
      ∧ SrcOp.inline (trimSpace newSrc) ∈ tC.ops
      ∧ (∃ ext, tC.ops = t.ops ++ ext) := by
  obtain ⟨hcA, hlA⟩ := getTemplate_ok hA
  have hPutSave : PutTemplate e fuel s A bb newSrc [] =
      saveTemplate e fuel s A bb false newSrc [] := by
    unfold PutTemplate
    rw [hA]
  cases hpre : saveTemplatePre e s A bb newSrc [] with
  | error err =>
    rw [hPutSave, saveTemplate_pre_error e fuel s A bb false newSrc [] err hpre] at hput
    exact absurd hput (by simp)
  | ok v =>
    obtain ⟨t0, hb0, hs0, fns0⟩ := v
    -- dissect the pre phase: with a nonblank trimmed source it took the
    -- inline branch, so hs0 = true, fns0 = [] and t0 ends in the new op
    have hshape : hs0 = true ∧ fns0 = ([] : List String)
        ∧ ∃ ops0, t0.ops = ops0 ++ [SrcOp.inline (trimSpace newSrc)] := by
      unfold saveTemplatePre at hpre
      rw [hcA] at hpre
      rcases hpick : (match checkName bb with
        | some _ => Except.ok (tmplNew A, false)
        | none =>
          match getTemplate s bb with
          | .error err => Except.error err
          | .ok tb => Except.ok (tmplClone tb, true)) with err0 | ⟨tmpl0, hbb0⟩
      · rw [hpick] at hpre; exact absurd hpre (by simp)
      · rw [hpick] at hpre
        simp only [if_neg hsrc] at hpre
        rcases hps : tmplParse e tmpl0 (trimSpace newSrc) with err1 | t1
        · rw [hps] at hpre; exact absurd hpre (by simp)
        · rw [hps] at hpre
          simp only [Except.ok.injEq, Prod.mk.injEq] at hpre
          obtain ⟨ht1, hhb, hhs, hfns⟩ := hpre
          refine ⟨hhs.symm, hfns.symm, tmpl0.ops, ?_⟩
          unfold tmplParse at hps
          split at hps
          · simp only [Except.ok.injEq] at hps
            rw [← ht1, ← hps]
          · exact absurd hps (by simp)
    obtain ⟨hhs0, hfns0, ops0, hops0⟩ := hshape
    subst hhs0 hfns0
    have hrepl := saveTemplate_replace_eq e fuel s A bb newSrc [] t0 hb0 true [] hpre
    rcases hCT : rebuildChildTemplates e fuel A t0
        (saveTemplateDataToDB { s with tmpls := insertTmpl s.tmpls A t0 }
          ⟨A, bb, trimSpace newSrc, [], true, hb0⟩) with ⟨o, s3⟩
    rw [hCT] at hrepl
    cases o with
    | some err =>
      rw [hPutSave, hrepl] at hput
      exact absurd hput (by simp)
    | none =>
      have hput_full : PutTemplate e fuel s A bb newSrc [] = (.ok t0, s3) := by
        rw [hPutSave, hrepl]
      have ht0t : t0 = t := by
        rw [hput_full] at hput
        simpa using hput
      subst ht0t
      have hdb : (saveTemplateDataToDB { s with tmpls := insertTmpl s.tmpls A t0 }
          ⟨A, bb, trimSpace newSrc, [], true, hb0⟩).tmplData =
          (s.tmplData.filter (fun r => !(r.name == A))) ++
            [⟨A, bb, trimSpace newSrc, [], true, hb0⟩] := by
        rw [saveTemplateDataToDB_tmplData]
      have hbmem : b ∈ (saveTemplateDataToDB { s with tmpls := insertTmpl s.tmpls A t0 }
          ⟨A, bb, trimSpace newSrc, [], true, hb0⟩).tmplData := by
        rw [hdb]
        refine List.mem_append.mpr (Or.inl (List.mem_filter.mpr ⟨hb, ?_⟩))
        simp [hbn, hBA]
      have hcmem : c ∈ (saveTemplateDataToDB { s with tmpls := insertTmpl s.tmpls A t0 }
          ⟨A, bb, trimSpace newSrc, [], true, hb0⟩).tmplData := by
        rw [hdb]
        refine List.mem_append.mpr (Or.inl (List.mem_filter.mpr ⟨hc, ?_⟩))
        simp [hcn, hCA]
      obtain ⟨tB, htB, extB, hextB⟩ :=
        rebuildChildTemplates_child e fuel A t0 _ s3 hCT b hbmem hbb
      obtain ⟨tC, htC, extC, hextC⟩ :=
        rebuildChildTemplates_grandchild e fuel A t0 _ s3 hCT b hbmem hbb
          c hcmem (hcb.trans hbn.symm)
      have hmemNew : ∀ tx : Tmpl, ∀ ext, tx.ops = t0.ops ++ ext →
          SrcOp.inline (trimSpace newSrc) ∈ tx.ops := by
        intro tx ext hext
        rw [hext, hops0, List.append_assoc]
        exact List.mem_append.mpr (Or.inr (List.mem_append.mpr (Or.inl
          (List.mem_singleton.mpr rfl))))
      refine ⟨tB, tC, ?_, hmemNew tB extB hextB, ⟨extB, hextB⟩,
        ?_, hmemNew tC extC hextC, ⟨extC, hextC⟩⟩
      · rw [hput_full]
        exact getTemplate_of_parts hNB (by rw [← hbn]; exact htB)
      · rw [hput_full]
        exact getTemplate_of_parts hNC (by rw [← hcn]; exact htC)

/-- Concrete three-level store for the C1 witness: base A, child B,
grandchild C, all inline-sourced. -/
def storeABC : TplSys :=
  (AddTemplate engAll 1
    (AddTemplate engAll 1
      (AddTemplate engAll 1 emptyStore "A" "" "a" []).2 "B" "A" "b" []).2
    "C" "B" "c" []).2

/-- Witness for C1 at the concrete three-level store. -/
theorem cascade_propagation_witness :
    ∃ tB tC,
      getTemplate (PutTemplate engAll 4 storeABC "A" "" "n" []).2 "B" = .ok tB
      ∧ SrcOp.inline (trimSpace "n") ∈ tB.ops
      ∧ (∃ ext, tB.ops = (⟨"A", [.inline "n"]⟩ : Tmpl).ops ++ ext)
      ∧ getTemplate (PutTemplate engAll 4 storeABC "A" "" "n" []).2 "C" = .ok tC
      ∧ SrcOp.inline (trimSpace "n") ∈ tC.ops
      ∧ (∃ ext, tC.ops = (⟨"A", [.inline "n"]⟩ : Tmpl).ops ++ ext) :=
  cascade_propagation engAll 4 storeABC "A" "B" "C" "" "n"
    ⟨"B", "A", "b", [], true, true⟩ ⟨"C", "B", "c", [], true, true⟩
    ⟨"A", [.inline "a"]⟩ ⟨"A", [.inline "n"]⟩
    (by rfl) (by decide) rfl rfl (by decide) rfl rfl
    (by decide) (by decide) (by decide) (by decide) (by decide) (by decide)

theorem childParse_error (e : Engine) (tmpl : Tmpl) (td : TmplData) (err : TErr)
    (h : childParse e tmpl td = .error err) : err = .parseErr := by
  unfold childParse tmplParse tmplParseFiles at h
  split at h <;> split at h <;> simp_all

/-- Reachable two-template store: base A with inline source, child B
based on A. -/
def storeAB : TplSys :=
  (AddTemplate engAll 1 (AddTemplate engAll 1 emptyStore "A" "" "xa" []).2
    "B" "A" "xb" []).2

/-- The cyclic metadata table produced by PutTemplate("A", base "B"):
A's record points to B and B's record points to A. -/
def dbCycle : List TmplData :=
  [⟨"B", "A", "xb", [], true, true⟩, ⟨"A", "B", "x", [], true, true⟩]

theorem cycle_diverges : ∀ (fuel : Nat) (tm : Tmpl) (s : TplSys), s.tmplData = dbCycle →
    (rebuildChildTemplates engAll fuel "A" tm s).1 = some .fuelOut
    ∧ (rebuildChildTemplates engAll fuel "B" tm s).1 = some .fuelOut := by
  intro fuel
  induction fuel with
  | zero => intro tm s hs; exact ⟨rfl, rfl⟩
  | succ f ih =>
    intro tm s hs
    constructor
    · rw [rebuildChildTemplates, show checkName "A" = none from by decide]
      rw [hs, show dbCycle.filter (fun td => td.baseTmplID == "A") =
        [⟨"B", "A", "xb", [], true, true⟩] from by decide]
      rw [rebuildChildLoop,
        show childParse engAll tm ⟨"B", "A", "xb", [], true, true⟩ =
          .ok ⟨tm.name, tm.ops ++ [.inline "xb"]⟩ from rfl]
      simp only []
      rcases hCT : rebuildChildTemplates engAll f "B" ⟨tm.name, tm.ops ++ [.inline "xb"]⟩
          { s with tmpls := insertTmpl s.tmpls "B" ⟨tm.name, tm.ops ++ [.inline "xb"]⟩ }
        with ⟨o, s2⟩
      rw [hCT]
      have h2 := (ih ⟨tm.name, tm.ops ++ [.inline "xb"]⟩
        { s with tmpls := insertTmpl s.tmpls "B" ⟨tm.name, tm.ops ++ [.inline "xb"]⟩ } hs).2
      rw [hCT] at h2
      simp only [] at h2
      subst h2
      rfl
    · rw [rebuildChildTemplates, show checkName "B" = none from by decide]
      rw [hs, show dbCycle.filter (fun td => td.baseTmplID == "B") =
        [⟨"A", "B", "x", [], true, true⟩] from by decide]
      rw [rebuildChildLoop,
        show childParse engAll tm ⟨"A", "B", "x", [], true, true⟩ =
          .ok ⟨tm.name, tm.ops ++ [.inline "x"]⟩ from rfl]
      simp only []
      rcases hCT : rebuildChildTemplates engAll f "A" ⟨tm.name, tm.ops ++ [.inline "x"]⟩
          { s with tmpls := insertTmpl s.tmpls "A" ⟨tm.name, tm.ops ++ [.inline "x"]⟩ }
        with ⟨o, s2⟩
      rw [hCT]
      have h2 := (ih ⟨tm.name, tm.ops ++ [.inline "x"]⟩
        { s with tmpls := insertTmpl s.tmpls "A" ⟨tm.name, tm.ops ++ [.inline "x"]⟩ } hs).1
      rw [hCT] at h2
      simp only [] at h2
      subst h2
      rfl

/-- The artifact produced by PutTemplate("A", base "B", src "x") on
storeAB: B's compiled form with "x" parsed on top. -/
def tPutA : Tmpl := ⟨"A", [.inline "xa", .inline "xb", .inline "x"]⟩

/-- The store state of that Put right before its cascade: A's new
artifact installed, metadata retargeted to the cycle A -> B -> A. -/
def sPutCycle : TplSys :=
  saveTemplateDataToDB { storeAB with tmpls := insertTmpl storeAB.tmpls "A" tPutA }
    ⟨"A", "B", trimSpace "x", [], true, true⟩

/-- C2, counterexample: the base-template graph is NOT always acyclic
and the rebuild recursion does NOT always terminate.  From the reachable
store holding A and its child B, PutTemplate may retarget A's base onto
its own descendant B; the resulting metadata table is cyclic and the
rebuild cascade inside that very Put recurses forever — it exhausts
every finite fuel bound, modelling divergence of the unbounded Go
recursion. -/
theorem cascade_nontermination_counterexample :
    storeAB.tmplData = [⟨"A", "", "xa", [], true, false⟩, ⟨"B", "A", "xb", [], true, true⟩]
    ∧ ∀ fuel : Nat, (PutTemplate engAll fuel storeAB "A" "B" "x" []).1 = .error .fuelOut := by
  refine ⟨by decide, ?_⟩
  intro fuel
  have hget : getTemplate storeAB "A" = .ok ⟨"A", [.inline "xa"]⟩ := rfl
  have hput : PutTemplate engAll fuel storeAB "A" "B" "x" [] =
      saveTemplate engAll fuel storeAB "A" "B" false "x" [] := by
    unfold PutTemplate
    rw [hget]
  have hpre : saveTemplatePre engAll storeAB "A" "B" "x" [] =
      .ok (tPutA, true, true, []) := by decide
  rw [hput, saveTemplate_replace_eq engAll fuel storeAB "A" "B" "x" [] tPutA true true [] hpre]
  have hred : (match rebuildChildTemplates engAll fuel "A" tPutA sPutCycle with
      | (some err, s3) => ((Except.error err : Except TErr Tmpl), s3)
      | (none, s3) => (Except.ok tPutA, s3)).1 = Except.error TErr.fuelOut := by
    rcases hCT : rebuildChildTemplates engAll fuel "A" tPutA sPutCycle with ⟨o, s3⟩
    have h2 := (cycle_diverges fuel tPutA sPutCycle (by decide)).1
    rw [hCT] at h2
    simp only [] at h2
    subst h2
    rfl
  exact hred

theorem rebuildChildLoop_no_fuelOut (e : Engine)
    (sub : String → Tmpl → TplSys → Option TErr × TplSys) (db : List TmplData)
    (hpres : ∀ n tm s, ((sub n tm s).2).tmplData = s.tmplData) :
    ∀ (children : List TmplData) (tmpl : Tmpl) (s : TplSys), s.tmplData = db →
      (∀ td ∈ children, ∀ (tm : Tmpl) (s' : TplSys), s'.tmplData = db →
        (sub td.name tm s').1 ≠ some .fuelOut) →
      (rebuildChildLoop e sub tmpl children s).1 ≠ some .fuelOut := by
  intro children
  induction children with
  | nil => intro tmpl s hs hsub; simp [rebuildChildLoop]
  | cons td rest ih =>
    intro tmpl s hs hsub
    rw [rebuildChildLoop]
    cases hp : childParse e tmpl td with
    | error err =>
      have := childParse_error e tmpl td err hp
      subst this
      simp
    | ok ctmpl =>
      simp only []
      rcases hs2 : sub td.name ctmpl { s with tmpls := insertTmpl s.tmpls td.name ctmpl }
        with ⟨o, s2⟩
      have hnf := hsub td (List.mem_cons_self td rest) ctmpl
        { s with tmpls := insertTmpl s.tmpls td.name ctmpl } hs
      rw [hs2] at hnf
      cases o with
      | some err => simpa using hnf
      | none =>
        simp only []
        have hs2data : s2.tmplData = db := by
          have := hpres td.name ctmpl { s with tmpls := insertTmpl s.tmpls td.name ctmpl }
          rw [hs2] at this
          rw [this, hs]
        exact ih tmpl s2 hs2data (fun td' h' => hsub td' (List.mem_cons_of_mem td h'))

theorem rebuildChildTemplates_no_fuelOut (e : Engine) (db : List TmplData)
    (rank : String → Nat) (bound : Nat)
    (hR : ∀ td ∈ db, rank td.baseTmplID < rank td.name)
    (hB : ∀ td ∈ db, rank td.name < bound) :
    ∀ (fuel : Nat) (name : String) (tm : Tmpl) (s : TplSys), s.tmplData = db →
      bound ≤ fuel + rank name → 1 ≤ fuel →
      (rebuildChildTemplates e fuel name tm s).1 ≠ some .fuelOut := by
  intro fuel
  induction fuel with
  | zero => intro name tm s hs hle h1; omega
  | succ f ih =>
    intro name tm s hs hle h1
    rw [rebuildChildTemplates]
    cases hc : checkName name with
    | some err =>
      have herr : err = .noName := by
        unfold checkName at hc
        split at hc
        · exact (Option.some.injEq _ _ ▸ hc).symm ▸ rfl
        · exact absurd hc (by simp)
      subst herr
      simp
    | none =>
      refine rebuildChildLoop_no_fuelOut e (rebuildChildTemplates e f) db
        (fun n t s0 => rebuildChildTemplates_tmplData e f n t s0) _ tm s hs ?_
      intro td htd tm' s' hs'
      have htdDb : td ∈ db := by
        rw [← hs]
        exact (List.mem_filter.mp htd).1
      have hbaseEq : td.baseTmplID = name := by
        have := (List.mem_filter.mp htd).2
        simpa using this
      have hrank : rank name < rank td.name := by
        have := hR td htdDb
        rw [hbaseEq] at this
        exact this
      have hbnd := hB td htdDb
      exact ih td.name tm' s' hs' (by omega) (by omega)

/-- C2, amended: the rebuild recursion terminates on every store whose
base-reference graph admits a rank function strictly increasing from
base to child (an acyclic forest): with enough fuel the routine never
exhausts its fuel bound, i.e. the unbounded Go recursion is finite.
The base graph is however NOT always acyclic on reachable stores: a
template's base CAN be retargeted by PutTemplate, and retargeting it
onto a descendant creates a cycle on which the rebuild recursion
diverges (see the counterexample). -/
theorem rebuild_terminates_on_ranked_forest (e : Engine) (s : TplSys)
    (rank : String → Nat) (bound fuel : Nat) (name : String) (tm : Tmpl)
    (hR : ∀ td ∈ s.tmplData, rank td.baseTmplID < rank td.name)
    (hB : ∀ td ∈ s.tmplData, rank td.name < bound)
    (hfuel : bound ≤ fuel + rank name) (h1 : 1 ≤ fuel) :
    (rebuildChildTemplates e fuel name tm s).1 ≠ some .fuelOut :=
  rebuildChildTemplates_no_fuelOut e s.tmplData rank bound hR hB fuel name tm s rfl hfuel h1

/-- Witness for the amended C2: the acyclic three-level store A, B, C
with an explicit rank function. -/
theorem rebuild_terminates_on_ranked_forest_witness :
    (rebuildChildTemplates engAll 4 "A" ⟨"A", [.inline "a"]⟩ storeABC).1 ≠
      some .fuelOut :=
  rebuild_terminates_on_ranked_forest engAll storeABC
    (fun n => if n = "A" then 1 else if n = "B" then 2 else if n = "C" then 3 else 0)
    4 4 "A" ⟨"A", [.inline "a"]⟩ (by decide) (by decide) (by decide) (by decide)
